import Mathlib

/-!
Verification of the request-normalization, caching, history and error-mapping
layer of the Active Network MCP server.  Definitions are shallow embeddings of
the TypeScript source in src/active-network-server/index.ts and
src/active-network-client.ts:
JS objects that serve as string-keyed maps become insertion-ordered association
lists, Date.getTime() values become Int milliseconds, and optional fields
become Option.  JS falsy defaulting (x || d) is modelled field-by-field with
the falsy values that can actually arise (empty string, zero).
-/

/-- Lookup in a JS Map / object modelled as an insertion-ordered association
list: the first binding for the key. -/
def mapGet? {β : Type} : List (String × β) → String → Option β
  | [], _ => none
  | (k, v) :: rest, key => if k = key then some v else mapGet? rest key

/-- JS Map.set: overwrite the existing binding in place, or append a new one
at the end (insertion order). -/
def mapSet {β : Type} : List (String × β) → String → β → List (String × β)
  | [], key, v => [(key, v)]
  | (k, w) :: rest, key, v =>
    if k = key then (key, v) :: rest else (k, w) :: mapSet rest key v

/-- JS Map.delete: remove the binding for the key. -/
def mapDelete {β : Type} : List (String × β) → String → List (String × β)
  | [], _ => []
  | (k, w) :: rest, key => if k = key then rest else (k, w) :: mapDelete rest key

/-- The keys of the association list, in insertion order. -/
def mapKeys {β : Type} (m : List (String × β)) : List String :=
  m.map Prod.fst

/-- JSON-expressible field values of a searchParams record (the values that
occur in SearchParams: strings, numbers, booleans). -/
inductive Jav : Type
  | str (s : String)
  | num (n : Int)
  | bool (b : Bool)
deriving DecidableEq

/-- JSON.stringify of a single value (the parameter strings in this server
contain no characters needing escapes). -/
def javRender : Jav → String
  | .str s => "\"" ++ s ++ "\""
  | .num n => toString n
  | .bool b => if b then "true" else "false"

/-- JSON.stringify of the comma-separated field list, in the insertion order
of the underlying object. -/
def fieldsRender : List (String × Jav) → String
  | [] => ""
  | [(k, v)] => "\"" ++ k ++ "\":" ++ javRender v
  | (k, v) :: rest => "\"" ++ k ++ "\":" ++ javRender v ++ "," ++ fieldsRender rest

/-- generateCacheKey from index.ts line 1243: JSON.stringify(params), where
params is a JS object, i.e. an insertion-ordered field list. -/
def generateCacheKey (params : List (String × Jav)) : String :=
  "\x7b" ++ fieldsRender params ++ "\x7d"

/-- User preferences held in the server context (index.ts lines 23-28). -/
structure Preferences : Type where
  defaultLocation : Option String
  defaultRadius : Option Int
  favoriteCategories : List String
  excludeChildren : Option Bool
deriving DecidableEq

/-- The startup preferences (index.ts lines 70-79). -/
def defaultPrefs : Preferences :=
  { defaultLocation := some "Vancouver,BC,CA"
    defaultRadius := some 25
    favoriteCategories := []
    excludeChildren := some true }

/-- Caller arguments to the search tool; none means the field is absent from
the request object. -/
structure Args : Type where
  query : Option String
  near : Option String
  radius : Option Int
  category : Option String
  exclude_children : Option Bool
  per_page : Option Int
  current_page : Option Int
  use_cache : Option Bool
deriving DecidableEq

/-- An Args record with every field absent. -/
def emptyArgs : Args :=
  { query := none, near := none, radius := none, category := none
    exclude_children := none, per_page := none, current_page := none
    use_cache := none }

/-- The effective search-parameter record the handler builds (SearchParams
restricted to the fields this development reasons about). -/
structure SearchParamsRec : Type where
  query : Option String
  near : Option String
  radius : Option Int
  category : Option String
  exclude_children : Option Bool
  per_page : Option Int
  current_page : Option Int
  use_cache : Option Bool
deriving DecidableEq

/-- Spread/presence choice: the first operand if the field is present, else
the second.  Models the effect of the trailing object spread for one field. -/
def optOr {β : Type} (a : Option β) (b : Option β) : Option β :=
  match a with
  | some x => some x
  | none => b

/-- JS string defaulting x || d: the empty string is falsy. -/
def jsOrStr (a : Option String) (b : Option String) : Option String :=
  match a with
  | some s => if s = "" then b else some s
  | none => b

/-- JS numeric defaulting x || d on optional operands: zero is falsy. -/
def jsOrNumOpt (a : Option Int) (b : Option Int) : Option Int :=
  match a with
  | some n => if n = 0 then b else some n
  | none => b

/-- JS numeric defaulting x || d with a concrete default: zero is falsy. -/
def jsOrNum (a : Option Int) (d : Int) : Int :=
  match a with
  | some n => if n = 0 then d else n
  | none => d

/-- The explicitly computed fields of the searchParams literal in the
search_activities handler (index.ts lines 404-409), before the args spread. -/
def computedSearchParams (args : Args) (prefs : Preferences) : SearchParamsRec :=
  { query := none
    near := jsOrStr args.near prefs.defaultLocation
    radius := jsOrNumOpt args.radius prefs.defaultRadius
    category := none
    exclude_children := optOr args.exclude_children prefs.excludeChildren
    per_page := some (min (args.per_page.getD 25) 50)
    current_page := some (args.current_page.getD 1)
    use_cache := none }

/-- The trailing ...args spread (index.ts line 410): every field present in
args overwrites the computed value. -/
def spreadArgs (base : SearchParamsRec) (args : Args) : SearchParamsRec :=
  { query := optOr args.query base.query
    near := optOr args.near base.near
    radius := optOr args.radius base.radius
    category := optOr args.category base.category
    exclude_children := optOr args.exclude_children base.exclude_children
    per_page := optOr args.per_page base.per_page
    current_page := optOr args.current_page base.current_page
    use_cache := optOr args.use_cache base.use_cache }

/-- The searchParams record built by the search_activities handler
(index.ts lines 404-411). -/
def serverSearchParams (args : Args) (prefs : Preferences) : SearchParamsRec :=
  spreadArgs (computedSearchParams args prefs) args

/-- The per_page query value computed by the client
(active-network-client.ts line 68): Math.min(params.per_page || 25, 50). -/
def clientPerPage (p : Option Int) : Int :=
  min (jsOrNum p 25) 50

/-- The current_page query value computed by the client
(active-network-client.ts line 69): params.current_page || 1. -/
def clientCurrentPage (p : Option Int) : Int :=
  jsOrNum p 1

/-- A cache entry (index.ts line 29): payload, storage time (ms) and ttl (ms). -/
structure CacheEntry (α : Type) : Type where
  data : α
  timestamp : Int
  ttl : Int
deriving DecidableEq

/-- The cache map of the server context, keyed by the generated cache key. -/
abbrev Cache (α : Type) : Type :=
  List (String × CacheEntry α)

/-- getCachedResult (index.ts lines 1247-1258): miss when absent; when the
entry is older than its ttl, delete it and miss; otherwise return the payload.
The second component is the cache after the lazy deletion side effect. -/
def getCachedResult {α : Type} (c : Cache α) (key : String) (now : Int) :
    Option α × Cache α :=
  match mapGet? c key with
  | none => (none, c)
  | some entry =>
    if now - entry.timestamp > entry.ttl then (none, mapDelete c key)
    else (some entry.data, c)

/-- cleanupExpiredCache (index.ts lines 1273-1284): delete every entry whose
age exceeds its ttl. -/
def cleanupExpiredCache {α : Type} (now : Int) (c : Cache α) : Cache α :=
  c.filter (fun p => !(now - p.2.timestamp > p.2.ttl))

/-- The default ttl of setCachedResult (index.ts line 1260): 5 minutes in ms. -/
def defaultCacheTtl : Int := 300000

/-- setCachedResult (index.ts lines 1260-1271): store the entry (overwriting
any previous one for the key), then run the bulk cleanup when the entry count
exceeds 100. -/
def setCachedResult {α : Type} (now : Int) (c : Cache α) (key : String)
    (data : α) (ttl : Int) : Cache α :=
  if (mapSet c key { data := data, timestamp := now, ttl := ttl }).length > 100 then
    cleanupExpiredCache now (mapSet c key { data := data, timestamp := now, ttl := ttl })
  else
    mapSet c key { data := data, timestamp := now, ttl := ttl }

/-- A search-history record (index.ts lines 18-22). -/
structure HistoryRecord : Type where
  query : SearchParamsRec
  timestamp : Int
  resultCount : Int
deriving DecidableEq

/-- The truncation step of addToSearchHistory: keep only the last 100 entries
(slice(-100)) when the length exceeds 100. -/
def capLast100 {β : Type} (l : List β) : List β :=
  if l.length > 100 then l.drop (l.length - 100) else l

/-- addToSearchHistory (index.ts lines 1286-1297): push a record at the tail,
then truncate to the last 100. -/
def addToSearchHistory (log : List HistoryRecord) (query : SearchParamsRec)
    (now : Int) (resultCount : Int) : List HistoryRecord :=
  capLast100 (log ++ [{ query := query, timestamp := now, resultCount := resultCount }])

/-- The upstream search response (the fields this layer inspects). -/
structure SearchResponse : Type where
  total_results : Option Int
  results : List String
deriving DecidableEq

/-- The mutable server context touched by the search handler. -/
structure ServerState : Type where
  recentSearches : List HistoryRecord
  cache : Cache SearchResponse
deriving DecidableEq

/-- The observable outcome of one search_activities call: a cache hit
(the _cached:true reply), a fresh reply annotated with the effective
parameters, or a thrown search failure. -/
inductive SearchOutcome : Type
  | cachedHit (data : SearchResponse)
  | fresh (data : SearchResponse) (params : SearchParamsRec)
  | failure (msg : String)
deriving DecidableEq

/-- Serialization of the effective parameter record into the field list that
JSON.stringify sees, in the insertion order the handler literal produces
(literal fields first, spread-only fields after); absent fields are skipped. -/
def serializeParams (p : SearchParamsRec) : List (String × Jav) :=
  (match p.near with | some s => [("near", Jav.str s)] | none => []) ++
  (match p.radius with | some n => [("radius", Jav.num n)] | none => []) ++
  (match p.exclude_children with | some b => [("exclude_children", Jav.bool b)] | none => []) ++
  (match p.per_page with | some n => [("per_page", Jav.num n)] | none => []) ++
  (match p.current_page with | some n => [("current_page", Jav.num n)] | none => []) ++
  (match p.query with | some s => [("query", Jav.str s)] | none => []) ++
  (match p.category with | some s => [("category", Jav.str s)] | none => []) ++
  (match p.use_cache with | some b => [("use_cache", Jav.bool b)] | none => [])

/-- The cache key derived from an effective parameter record. -/
def generateCacheKeyRec (p : SearchParamsRec) : String :=
  generateCacheKey (serializeParams p)

/-- JS result.total_results || 0 used for the history resultCount
(index.ts line 442). -/
def responseCount (r : SearchResponse) : Int :=
  jsOrNum r.total_results 0

/-- The search_activities tool handler (index.ts lines 400-457), with the
upstream call outcome supplied as an oracle: build the effective parameters,
derive the key, consult the cache unless use_cache is false, and on a miss
dispatch upstream; on success store in the cache (when enabled) and append to
the history; on failure re-throw. -/
def searchToolCall (st : ServerState) (prefs : Preferences) (args : Args)
    (now : Int) (upstream : Except String SearchResponse) :
    SearchOutcome × ServerState :=
  if args.use_cache ≠ some false then
    match getCachedResult st.cache (generateCacheKeyRec (serverSearchParams args prefs)) now with
    | (some data, c1) => (.cachedHit data, { st with cache := c1 })
    | (none, c1) =>
      match upstream with
      | .error e => (.failure e, { st with cache := c1 })
      | .ok result =>
        (.fresh result (serverSearchParams args prefs),
         { recentSearches :=
             addToSearchHistory st.recentSearches (serverSearchParams args prefs) now
               (responseCount result),
           cache :=
             setCachedResult now c1 (generateCacheKeyRec (serverSearchParams args prefs))
               result defaultCacheTtl })
  else
    match upstream with
    | .error e => (.failure e, st)
    | .ok result =>
      (.fresh result (serverSearchParams args prefs),
       { recentSearches :=
           addToSearchHistory st.recentSearches (serverSearchParams args prefs) now
             (responseCount result),
         cache := st.cache })

/-- JS string defaulting x || d with a concrete default: empty string falsy. -/
def jsStrD (a : Option String) (d : String) : String :=
  match a with
  | some s => if s = "" then d else s
  | none => d

/-- One step of the frequency reduce in calculateSearchAnalytics
(index.ts lines 1167-1171): acc[key] = (acc[key] || 0) + 1, keeping the
first-seen insertion order of a JS string-keyed object. -/
def bumpFreq : List (String × Nat) → String → List (String × Nat)
  | [], key => [(key, 1)]
  | (k, n) :: rest, key =>
    if k = key then (k, n + 1) :: rest else (k, n) :: bumpFreq rest key

/-- The category key of a history record: search.query.category || 'unknown'
(index.ts line 1168). -/
def categoryKeyOf (s : HistoryRecord) : String :=
  jsStrD s.query.category "unknown"

/-- The location key of a history record:
search.query.near || preferences.defaultLocation || 'unknown'
(index.ts line 1174). -/
def locationKeyOf (defLoc : Option String) (s : HistoryRecord) : String :=
  jsStrD s.query.near (jsStrD defLoc "unknown")

/-- The frequency table built by reducing over the history with a key
function. -/
def foldFreq (f : HistoryRecord → String) (searches : List HistoryRecord) :
    List (String × Nat) :=
  searches.foldl (fun acc s => bumpFreq acc (f s)) []

/-- categoryFreq of calculateSearchAnalytics (index.ts lines 1167-1171). -/
def categoryFreq (searches : List HistoryRecord) : List (String × Nat) :=
  foldFreq categoryKeyOf searches

/-- locationFreq of calculateSearchAnalytics (index.ts lines 1173-1177). -/
def locationFreq (defLoc : Option String) (searches : List HistoryRecord) :
    List (String × Nat) :=
  foldFreq (locationKeyOf defLoc) searches

/-- The order imposed by the JS comparator (a, b) => b.count - a.count on
Object.entries: descending count.  JS Array.prototype.sort is stable, which
List.insertionSort with this relation reproduces. -/
def countGE (a b : String × Nat) : Prop := b.2 ≤ a.2

instance : DecidableRel countGE := fun a b => Nat.decLe b.2 a.2

instance : IsTotal (String × Nat) countGE := ⟨fun a b => Nat.le_total b.2 a.2⟩

instance : IsTrans (String × Nat) countGE := ⟨fun _ _ _ h1 h2 => Nat.le_trans h2 h1⟩

/-- topCategories (index.ts lines 1185-1187): entries sorted by descending
count (stably), truncated to 5. -/
def topCategories (searches : List HistoryRecord) : List (String × Nat) :=
  (List.insertionSort countGE (categoryFreq searches)).take 5

/-- topLocations (index.ts lines 1188-1190). -/
def topLocations (defLoc : Option String) (searches : List HistoryRecord) :
    List (String × Nat) :=
  (List.insertionSort countGE (locationFreq defLoc searches)).take 5

/-- The key order the spec prescribes for tied counts: first-seen order of
the mapped keys.  Written from the words of the spec for comparison with the
order the code produces. -/
def specFirstSeen (keys : List String) : List String :=
  keys.foldl (fun acc k => if k ∈ acc then acc else acc ++ [k]) []

/-- The McpError codes the client throws (from the MCP SDK). -/
inductive ErrCode : Type
  | invalidParams
  | invalidRequest
  | internalError
deriving DecidableEq

/-- JS String.prototype.includes. -/
def strIncludes (s sub : String) : Bool :=
  decide (List.IsInfix sub.toList s.toList)

/-- The status-to-error mapping of the searchActivities catch block
(active-network-client.ts lines 167-199): the thrown McpError code and
message for each non-success upstream status. -/
def searchErrorMap (status : Nat) (message : String) : ErrCode × String :=
  if status = 400 then
    (.invalidParams, "Bad request: " ++ message)
  else if status = 403 then
    if strIncludes message "Over Rate Limit" then
      (.invalidRequest, "API rate limit exceeded. Please try again later.")
    else if strIncludes message "Not Authorized" then
      (.invalidParams, "Invalid API key or unauthorized access.")
    else
      (.invalidRequest, "Access denied: " ++ message)
  else if status = 414 then
    (.invalidParams, "Request URI too long. Please reduce the number of parameters.")
  else if status = 502 ∨ status = 503 ∨ status = 504 then
    (.internalError, "Active Network API is temporarily unavailable. Please try again later.")
  else
    (.internalError, "Active Network API error (" ++ toString status ++ "): " ++ message)

/-- The status-to-error mapping of the getActivityDetails catch block
(active-network-client.ts lines 216-231). -/
def detailsErrorMap (status : Nat) (message : String) : ErrCode × String :=
  if status = 404 then
    (.invalidRequest, "Activity not found")
  else
    (.internalError, "Failed to get activity details: " ++ message)

theorem mapGet?_mapSet_self {β : Type} (c : List (String × β)) (k : String) (v : β) :
    mapGet? (mapSet c k v) k = some v := by
  induction c with
  | nil => simp [mapSet, mapGet?]
  | cons p rest ih =>
    obtain ⟨k0, v0⟩ := p
    by_cases h : k0 = k
    · subst h; simp [mapSet, mapGet?]
    · simp [mapSet, mapGet?, h, ih]

theorem mapGet?_mapSet_ne {β : Type} (c : List (String × β)) (k k2 : String) (v : β)
    (h : k2 ≠ k) : mapGet? (mapSet c k v) k2 = mapGet? c k2 := by
  induction c with
  | nil => simp [mapSet, mapGet?, Ne.symm h]
  | cons p rest ih =>
    obtain ⟨k0, v0⟩ := p
    by_cases h0 : k0 = k
    · subst h0
      simp only [mapSet, if_pos rfl, mapGet?]
      rw [if_neg (Ne.symm h), if_neg (Ne.symm h)]
    · simp only [mapSet, if_neg h0, mapGet?]
      by_cases h1 : k0 = k2 <;> simp [h1, ih]

theorem mapKeys_mapSet {β : Type} (c : List (String × β)) (k : String) (v : β) :
    mapKeys (mapSet c k v)
      = if k ∈ mapKeys c then mapKeys c else mapKeys c ++ [k] := by
  induction c with
  | nil => simp [mapSet, mapKeys]
  | cons p rest ih =>
    obtain ⟨k0, v0⟩ := p
    simp only [mapKeys] at ih ⊢
    by_cases h : k0 = k
    · subst h
      simp [mapSet]
    · simp only [mapSet, if_neg h, List.map_cons, List.mem_cons]
      have hne : ¬ k = k0 := fun hh => h hh.symm
      by_cases hm : k ∈ rest.map Prod.fst
      · simp [hne, hm, ih]
      · simp [hne, hm, ih]

theorem mapGet?_eq_none_of_not_mem {β : Type} (c : List (String × β)) (k : String)
    (h : k ∉ mapKeys c) : mapGet? c k = none := by
  induction c with
  | nil => rfl
  | cons p rest ih =>
    obtain ⟨k0, v0⟩ := p
    simp only [mapKeys, List.map_cons, List.mem_cons] at h
    push_neg at h
    simp only [mapGet?]
    rw [if_neg (fun hh => h.1 hh.symm)]
    exact ih h.2

theorem mapKeys_filter_sublist {β : Type} (p : String × β → Bool)
    (c : List (String × β)) : List.Sublist (mapKeys (c.filter p)) (mapKeys c) :=
  (List.filter_sublist c).map Prod.fst

theorem mapGet?_filter {β : Type} (p : String × β → Bool) (c : List (String × β))
    (k : String) (hnd : (mapKeys c).Nodup) :
    mapGet? (c.filter p) k
      = (mapGet? c k).bind (fun v => if p (k, v) then some v else none) := by
  induction c with
  | nil => rfl
  | cons q rest ih =>
    obtain ⟨k0, v0⟩ := q
    simp only [mapKeys, List.map_cons, List.nodup_cons] at hnd
    by_cases h : k0 = k
    · subst h
      by_cases hp : p (k0, v0)
      · simp [List.filter_cons, hp, mapGet?]
      · have hnot : k0 ∉ mapKeys (rest.filter p) := fun hmem =>
          hnd.1 (by simpa [mapKeys] using (mapKeys_filter_sublist p rest).subset hmem)
        simp [List.filter_cons, hp, mapGet?,
          mapGet?_eq_none_of_not_mem _ _ hnot]
    · have hne : ¬ k0 = k := h
      have ih2 := ih (by simpa [mapKeys] using hnd.2)
      by_cases hp : p (k0, v0)
      · simp [List.filter_cons, hp, mapGet?, hne, ih2]
      · simp [List.filter_cons, hp, mapGet?, hne, ih2]

theorem mapGet?_mapDelete_self {β : Type} (c : List (String × β)) (k : String)
    (hnd : (mapKeys c).Nodup) : mapGet? (mapDelete c k) k = none := by
  induction c with
  | nil => rfl
  | cons q rest ih =>
    obtain ⟨k0, v0⟩ := q
    simp only [mapKeys, List.map_cons, List.nodup_cons] at hnd
    by_cases h : k0 = k
    · subst h
      simp only [mapDelete, if_pos rfl]
      exact mapGet?_eq_none_of_not_mem _ _ hnd.1
    · simp only [mapDelete, if_neg h, mapGet?, if_neg h]
      exact ih (by simpa [mapKeys] using hnd.2)

theorem getCachedResult_cache_cases {α : Type} (c : Cache α) (k : String) (now : Int) :
    (getCachedResult c k now).2 = c ∨ (getCachedResult c k now).2 = mapDelete c k := by
  unfold getCachedResult
  cases mapGet? c k with
  | none => left; rfl
  | some e =>
    by_cases h : now - e.timestamp > e.ttl
    · right; simp [h]
    · left; simp [h]

theorem getCachedResult_hit {α : Type} (c : Cache α) (k : String) (now : Int)
    (d : α) (c2 : Cache α) (h : getCachedResult c k now = (some d, c2)) :
    ∃ e, mapGet? c k = some e ∧ e.data = d ∧ now - e.timestamp ≤ e.ttl ∧ c2 = c := by
  unfold getCachedResult at h
  cases hg : mapGet? c k with
  | none => rw [hg] at h; simp at h
  | some e =>
    rw [hg] at h
    dsimp only at h
    by_cases hex : now - e.timestamp > e.ttl
    · rw [if_pos hex] at h
      simp at h
    · rw [if_neg hex] at h
      have h1 : some e.data = some d := congrArg Prod.fst h
      have h2 : c = c2 := congrArg Prod.snd h
      exact ⟨e, rfl, Option.some.inj h1, not_lt.mp hex, h2.symm⟩

theorem capLast100_eq_drop {β : Type} (l : List β) :
    capLast100 l = l.drop (l.length - 100) := by
  unfold capLast100
  split
  · rfl
  · next h =>
    have h0 : l.length - 100 = 0 := by omega
    rw [h0, List.drop_zero]

theorem addToSearchHistory_eq (log : List HistoryRecord) (q : SearchParamsRec)
    (now cnt : Int) :
    addToSearchHistory log q now cnt
      = (log ++ [({ query := q, timestamp := now, resultCount := cnt } : HistoryRecord)]).drop
          (log.length + 1 - 100) := by
  simp [addToSearchHistory, capLast100_eq_drop]

theorem length_addToSearchHistory (log : List HistoryRecord) (q : SearchParamsRec)
    (now cnt : Int) : (addToSearchHistory log q now cnt).length ≤ 100 := by
  rw [addToSearchHistory_eq, List.length_drop, List.length_append]
  simp only [List.length_cons, List.length_nil]
  omega

theorem addToSearchHistory_tail (log : List HistoryRecord) (q : SearchParamsRec)
    (now cnt : Int) :
    (addToSearchHistory log q now cnt).getLast?
      = some { query := q, timestamp := now, resultCount := cnt } := by
  have hk : log.length + 1 - 100 ≤ log.length := by omega
  rw [addToSearchHistory_eq, List.drop_append_of_le_length hk, List.getLast?_concat]

theorem histFold_general :
    ∀ (rs acc : List HistoryRecord), acc.length ≤ 100 →
      rs.foldl (fun l r => addToSearchHistory l r.query r.timestamp r.resultCount) acc
        = (acc ++ rs).drop (acc.length + rs.length - 100) := by
  intro rs
  induction rs with
  | nil =>
    intro acc h
    simp only [List.foldl_nil, List.append_nil, List.length_nil]
    have h0 : acc.length + 0 - 100 = 0 := by omega
    rw [h0, List.drop_zero]
  | cons r rs ih =>
    intro acc h
    have hstep : addToSearchHistory acc r.query r.timestamp r.resultCount
        = (acc ++ [r]).drop (acc.length + 1 - 100) := addToSearchHistory_eq acc _ _ _
    rw [List.foldl_cons, hstep]
    have hlen : ((acc ++ [r]).drop (acc.length + 1 - 100)).length ≤ 100 := by
      rw [List.length_drop, List.length_append]
      simp only [List.length_cons, List.length_nil]
      omega
    rw [ih _ hlen]
    have hk : acc.length + 1 - 100 ≤ (acc ++ [r]).length := by
      rw [List.length_append]; simp only [List.length_cons, List.length_nil]; omega
    rw [← List.drop_append_of_le_length hk, List.drop_drop, List.length_drop]
    rw [List.append_assoc]
    simp only [List.singleton_append, List.length_append, List.length_cons,
      List.length_nil, List.length_drop]
    congr 1
    omega

theorem bumpFreq_get_self (acc : List (String × Nat)) (key : String) :
    mapGet? (bumpFreq acc key) key = some ((mapGet? acc key).getD 0 + 1) := by
  induction acc with
  | nil => simp [bumpFreq, mapGet?]
  | cons p rest ih =>
    obtain ⟨k0, n⟩ := p
    by_cases h : k0 = key
    · subst h; simp [bumpFreq, mapGet?]
    · simp [bumpFreq, h, mapGet?, ih]

theorem bumpFreq_get_ne (acc : List (String × Nat)) (key k2 : String)
    (h : k2 ≠ key) : mapGet? (bumpFreq acc key) k2 = mapGet? acc k2 := by
  induction acc with
  | nil => simp [bumpFreq, mapGet?, Ne.symm h]
  | cons p rest ih =>
    obtain ⟨k0, n⟩ := p
    by_cases h0 : k0 = key
    · subst h0
      simp only [bumpFreq, if_pos rfl, mapGet?]
      rw [if_neg (fun hh : k0 = k2 => h (hh.symm.trans rfl))]
      rw [if_neg (fun hh : k0 = k2 => h (hh.symm.trans rfl))]
    · simp only [bumpFreq, if_neg h0, mapGet?]
      by_cases h1 : k0 = k2 <;> simp [h1, ih]

theorem bumpFreq_keys (acc : List (String × Nat)) (key : String) :
    mapKeys (bumpFreq acc key)
      = if key ∈ mapKeys acc then mapKeys acc else mapKeys acc ++ [key] := by
  induction acc with
  | nil => simp [bumpFreq, mapKeys]
  | cons p rest ih =>
    obtain ⟨k0, n⟩ := p
    simp only [mapKeys] at ih ⊢
    by_cases h : k0 = key
    · subst h
      simp [bumpFreq]
    · simp only [bumpFreq, if_neg h, List.map_cons, List.mem_cons]
      have hne : ¬ key = k0 := fun hh => h hh.symm
      by_cases hm : key ∈ rest.map Prod.fst
      · simp [hne, hm, ih]
      · simp [hne, hm, ih]

/-- The count a frequency table assigns to a key (absent keys count zero). -/
def freqCount (fl : List (String × Nat)) (k : String) : Nat :=
  (mapGet? fl k).getD 0

theorem foldFreq_count (f : HistoryRecord → String) :
    ∀ (l : List HistoryRecord) (acc : List (String × Nat)) (k : String),
      freqCount (l.foldl (fun a s => bumpFreq a (f s)) acc) k
        = freqCount acc k + l.countP (fun s => f s == k) := by
  intro l
  induction l with
  | nil => intro acc k; simp [freqCount]
  | cons s l ih =>
    intro acc k
    rw [List.foldl_cons, ih]
    by_cases h : f s = k
    · subst h
      rw [List.countP_cons_of_pos _ _ (by simp)]
      simp only [freqCount, bumpFreq_get_self, Option.getD_some]
      omega
    · rw [List.countP_cons_of_neg _ _ (by simpa using h)]
      simp only [freqCount, bumpFreq_get_ne acc (f s) k (Ne.symm h)]

theorem foldFreq_keys (f : HistoryRecord → String) :
    ∀ (l : List HistoryRecord) (acc : List (String × Nat)),
      mapKeys (l.foldl (fun a s => bumpFreq a (f s)) acc)
        = (l.map f).foldl (fun ks k => if k ∈ ks then ks else ks ++ [k]) (mapKeys acc) := by
  intro l
  induction l with
  | nil => intro acc; simp
  | cons s l ih =>
    intro acc
    rw [List.foldl_cons, ih, List.map_cons, List.foldl_cons, bumpFreq_keys]

theorem filter_orderedInsert_count (x : String × Nat) (l : List (String × Nat)) (n : Nat) :
    (List.orderedInsert countGE x l).filter (fun q => q.2 == n)
      = if x.2 == n then x :: l.filter (fun q => q.2 == n)
        else l.filter (fun q => q.2 == n) := by
  induction l with
  | nil =>
    by_cases h : x.2 = n
    · simp [List.orderedInsert, List.filter_cons, h]
    · simp [List.orderedInsert, List.filter_cons, h]
  | cons y ys ih =>
    simp only [List.orderedInsert]
    by_cases hr : countGE x y
    · rw [if_pos hr]
      by_cases h : x.2 = n
      · simp [List.filter_cons, h]
      · simp [List.filter_cons, h]
    · rw [if_neg hr]
      have hlt : x.2 < y.2 := Nat.lt_of_not_le (fun hle => hr hle)
      by_cases h : x.2 = n
      · have hy : ¬ y.2 = n := by omega
        simp [List.filter_cons, hy, ih, h]
      · by_cases hy : y.2 = n
        · simp [List.filter_cons, hy, ih, h]
        · simp [List.filter_cons, hy, ih, h]

theorem filter_insertionSort_count (fl : List (String × Nat)) (n : Nat) :
    (List.insertionSort countGE fl).filter (fun q => q.2 == n)
      = fl.filter (fun q => q.2 == n) := by
  induction fl with
  | nil => rfl
  | cons x xs ih =>
    simp only [List.insertionSort]
    rw [filter_orderedInsert_count]
    by_cases h : x.2 = n
    · simp [List.filter_cons, h, ih]
    · simp [List.filter_cons, h, ih]

theorem mapKeys_mapSet_nodup {β : Type} (c : List (String × β)) (k : String) (v : β)
    (hnd : (mapKeys c).Nodup) : (mapKeys (mapSet c k v)).Nodup := by
  rw [mapKeys_mapSet]
  by_cases hm : k ∈ mapKeys c
  · simp [hm, hnd]
  · simp [hm, hnd, List.nodup_append]

theorem mapKeys_setCachedResult_nodup {α : Type} (c : Cache α) (k : String) (d : α)
    (now ttl : Int) (hnd : (mapKeys c).Nodup) :
    (mapKeys (setCachedResult now c k d ttl)).Nodup := by
  unfold setCachedResult
  have h1 := mapKeys_mapSet_nodup c k { data := d, timestamp := now, ttl := ttl } hnd
  split
  · exact h1.sublist (mapKeys_filter_sublist _ _)
  · exact h1

theorem mapGet?_setCachedResult_self {α : Type} (c : Cache α) (k : String) (d : α)
    (now ttl : Int) (hnd : (mapKeys c).Nodup) (httl : 0 ≤ ttl) :
    mapGet? (setCachedResult now c k d ttl) k
      = some { data := d, timestamp := now, ttl := ttl } := by
  unfold setCachedResult
  have h1 := mapKeys_mapSet_nodup c k { data := d, timestamp := now, ttl := ttl } hnd
  split
  · rw [cleanupExpiredCache, mapGet?_filter _ _ _ h1, mapGet?_mapSet_self,
      Option.some_bind]
    rw [if_pos (by simp; omega)]
  · exact mapGet?_mapSet_self c k _

theorem mapGet?_setCachedResult_self_cases {α : Type} (c : Cache α) (k : String) (d : α)
    (now ttl : Int) (hnd : (mapKeys c).Nodup) :
    mapGet? (setCachedResult now c k d ttl) k
        = some { data := d, timestamp := now, ttl := ttl }
    ∨ mapGet? (setCachedResult now c k d ttl) k = none := by
  unfold setCachedResult
  have h1 := mapKeys_mapSet_nodup c k { data := d, timestamp := now, ttl := ttl } hnd
  split
  · rw [cleanupExpiredCache, mapGet?_filter _ _ _ h1, mapGet?_mapSet_self,
      Option.some_bind]
    by_cases hc : (!decide (now - now > ttl)) = true
    · left; rw [if_pos hc]
    · right; rw [if_neg hc]
  · left; exact mapGet?_mapSet_self c k _

theorem mapGet?_setCachedResult_ne {α : Type} (c : Cache α) (k k2 : String) (d : α)
    (now ttl : Int) (hnd : (mapKeys c).Nodup) (hne : k2 ≠ k) (e : CacheEntry α) :
    mapGet? (setCachedResult now c k d ttl) k2 = some e
      ↔ mapGet? c k2 = some e
        ∧ ((mapSet c k { data := d, timestamp := now, ttl := ttl }).length > 100
            → now - e.timestamp ≤ e.ttl) := by
  unfold setCachedResult
  have h1 := mapKeys_mapSet_nodup c k { data := d, timestamp := now, ttl := ttl } hnd
  split
  · next hlen =>
    rw [cleanupExpiredCache, mapGet?_filter _ _ _ h1, mapGet?_mapSet_ne _ _ _ _ hne]
    cases hg : mapGet? c k2 with
    | none => simp
    | some e0 =>
      rw [Option.some_bind]
      constructor
      · intro hif
        by_cases hc : (!decide (now - e0.timestamp > e0.ttl)) = true
        · rw [if_pos hc] at hif
          have he : e0 = e := Option.some.inj hif
          subst he
          simp at hc
          exact ⟨rfl, fun _ => by omega⟩
        · rw [if_neg hc] at hif
          exact absurd hif (by simp)
      · intro ⟨he, hfresh⟩
        have he2 : e0 = e := Option.some.inj he
        subst he2
        have hng : ¬(now - e0.timestamp > e0.ttl) := by
          have := hfresh hlen
          omega
        rw [if_pos (by simp [hng])]
  · next hlen =>
    rw [mapGet?_mapSet_ne _ _ _ _ hne]
    constructor
    · intro hg
      exact ⟨hg, fun hcon => absurd hcon hlen⟩
    · intro ⟨hg, _⟩
      exact hg

/-- A SearchParamsRec with every field absent. -/
def emptyParams : SearchParamsRec :=
  { query := none, near := none, radius := none, category := none
    exclude_children := none, per_page := none, current_page := none
    use_cache := none }

/-- C1 counterexample: two parameter records holding exactly the same
field-value pairs (a permutation of one another) in different insertion
orders produce different cache keys, so generateCacheKey is not
order-independent. -/
theorem cacheKey_order_independence_cex :
    List.Perm [("a", Jav.num 1), ("b", Jav.num 2)] [("b", Jav.num 2), ("a", Jav.num 1)]
    ∧ generateCacheKey [("a", Jav.num 1), ("b", Jav.num 2)]
        ≠ generateCacheKey [("b", Jav.num 2), ("a", Jav.num 1)] := by
  constructor
  · decide
  · decide

/-- C1 (amended): generateCacheKey is deterministic, i.e. equal records give
equal keys and key(p) = key(p) for every p, and it is exactly the JSON
serialization of the field list in its insertion order, but it is not
order-independent. -/
theorem generateCacheKey_deterministic :
    (∀ p : List (String × Jav), generateCacheKey p = generateCacheKey p)
    ∧ (∀ p q : List (String × Jav), p = q → generateCacheKey p = generateCacheKey q)
    ∧ generateCacheKey [("a", Jav.num 1), ("b", Jav.num 2)] = "\x7b\"a\":1,\"b\":2\x7d" := by
  refine ⟨fun p => rfl, fun p q h => by rw [h], by decide⟩

/-- C2 counterexample: the trailing args spread lets the caller override the
Math.min clamp in the effective record, so per_page 500 stays 500 there; and
the client maps per_page 0 to the default 25 (0 is falsy), not to 1. -/
theorem perPage_clamp_cex :
    (serverSearchParams { emptyArgs with per_page := some 500 } defaultPrefs).per_page
        = some 500
    ∧ clientPerPage (some 0) = 25 := by
  constructor
  · decide
  · decide

/-- C2 (amended): in the effective record per_page is the caller value when
present (the spread overrides the clamp) and 25 when absent, and current_page
is the caller value or 1; the client then clamps the dispatched per_page to
at most 50 (500 maps to 50), maps 0 and absent to 25, and defaults
current_page to 1.  There is no lower clamp to 1. -/
theorem searchParams_pagination :
    (∀ (args : Args) (prefs : Preferences),
      (serverSearchParams args prefs).per_page = optOr args.per_page (some 25)
      ∧ (serverSearchParams args prefs).current_page = optOr args.current_page (some 1))
    ∧ (∀ p : Int, clientPerPage (some p) ≤ 50)
    ∧ clientPerPage (some 500) = 50
    ∧ clientPerPage (some 0) = 25
    ∧ clientPerPage none = 25
    ∧ clientCurrentPage none = 1
    ∧ clientCurrentPage (some 0) = 1 := by
  refine ⟨?_, fun p => min_le_right _ _, by decide, by decide, by decide, by decide,
    by decide⟩
  intro args prefs
  constructor
  · cases h : args.per_page with
    | some n => simp [serverSearchParams, spreadArgs, computedSearchParams, optOr, h]
    | none =>
      simp only [serverSearchParams, spreadArgs, computedSearchParams, optOr, h,
        Option.getD_none]
      decide
  · cases h : args.current_page with
    | some n => simp [serverSearchParams, spreadArgs, computedSearchParams, optOr, h]
    | none =>
      simp [serverSearchParams, spreadArgs, computedSearchParams, optOr, h]

/-- C4: normalization fills near, radius and exclude_children from the
preferences only when the caller left the field unset (an explicit false or
any present value survives the merge), per_page defaults to 25 and
current_page to 1 when absent, and the yoga example from the spec produces
exactly the expected effective record. -/
theorem searchParams_defaults :
    (∀ (args : Args) (prefs : Preferences),
      (serverSearchParams args prefs).query = args.query
      ∧ (serverSearchParams args prefs).near = optOr args.near prefs.defaultLocation
      ∧ (serverSearchParams args prefs).radius = optOr args.radius prefs.defaultRadius
      ∧ (serverSearchParams args prefs).exclude_children
          = optOr args.exclude_children prefs.excludeChildren
      ∧ (serverSearchParams args prefs).per_page = optOr args.per_page (some 25)
      ∧ (serverSearchParams args prefs).current_page = optOr args.current_page (some 1))
    ∧ serverSearchParams { emptyArgs with query := some "yoga" }
        { defaultLocation := some "Austin,TX,US", defaultRadius := some 10,
          favoriteCategories := [], excludeChildren := some true }
      = { query := some "yoga", near := some "Austin,TX,US", radius := some 10,
          category := none, exclude_children := some true, per_page := some 25,
          current_page := some 1, use_cache := none } := by
  constructor
  · intro args prefs
    refine ⟨?_, ?_, ?_, ?_, ?_, ?_⟩
    · cases h : args.query with
      | some s => simp [serverSearchParams, spreadArgs, computedSearchParams, optOr, h]
      | none => simp [serverSearchParams, spreadArgs, computedSearchParams, optOr, h]
    · cases h : args.near with
      | some s => simp [serverSearchParams, spreadArgs, computedSearchParams, optOr, h]
      | none => simp [serverSearchParams, spreadArgs, computedSearchParams, optOr,
          jsOrStr, h]
    · cases h : args.radius with
      | some n => simp [serverSearchParams, spreadArgs, computedSearchParams, optOr, h]
      | none => simp [serverSearchParams, spreadArgs, computedSearchParams, optOr,
          jsOrNumOpt, h]
    · cases h : args.exclude_children with
      | some b => simp [serverSearchParams, spreadArgs, computedSearchParams, optOr, h]
      | none => simp [serverSearchParams, spreadArgs, computedSearchParams, optOr, h]
    · cases h : args.per_page with
      | some n => simp [serverSearchParams, spreadArgs, computedSearchParams, optOr, h]
      | none =>
        simp only [serverSearchParams, spreadArgs, computedSearchParams, optOr, h,
          Option.getD_none]
        decide
    · cases h : args.current_page with
      | some n => simp [serverSearchParams, spreadArgs, computedSearchParams, optOr, h]
      | none => simp [serverSearchParams, spreadArgs, computedSearchParams, optOr, h]
  · decide

/-- C3: cache freshness on a duplicate-free cache: after put(k, v, T) at
storedAt, a get(k) at any now with now - storedAt ≤ T returns v; a get(k) at
any now with now - storedAt > T misses and deletes the entry; and in general
a hit is only ever returned while the entry is within its ttl. -/
theorem cache_freshness {α : Type} (c : Cache α) (k : String) (v : α)
    (T storedAt now : Int) (hnd : (mapKeys c).Nodup) (hord : storedAt ≤ now) :
    (now - storedAt ≤ T →
      getCachedResult (setCachedResult storedAt c k v T) k now
        = (some v, setCachedResult storedAt c k v T))
    ∧ (now - storedAt > T →
      (getCachedResult (setCachedResult storedAt c k v T) k now).1 = none
      ∧ mapGet? (getCachedResult (setCachedResult storedAt c k v T) k now).2 k = none)
    ∧ (∀ (c2 : Cache α) (k2 : String) (t : Int) (d : α) (rest : Cache α),
        getCachedResult c2 k2 t = (some d, rest)
        → ∃ e, mapGet? c2 k2 = some e ∧ e.data = d ∧ t - e.timestamp ≤ e.ttl) := by
  refine ⟨?_, ?_, ?_⟩
  · intro hfresh
    have httl : 0 ≤ T := by omega
    have hget := mapGet?_setCachedResult_self c k v storedAt T hnd httl
    unfold getCachedResult
    rw [hget]
    dsimp only
    rw [if_neg (by omega)]
  · intro hexp
    rcases mapGet?_setCachedResult_self_cases c k v storedAt T hnd with hget | hget
    · unfold getCachedResult
      rw [hget]
      dsimp only
      rw [if_pos (by omega)]
      exact ⟨rfl, mapGet?_mapDelete_self _ _
        (mapKeys_setCachedResult_nodup c k v storedAt T hnd)⟩
    · unfold getCachedResult
      rw [hget]
      exact ⟨rfl, hget⟩
  · intro c2 k2 t d rest h
    obtain ⟨e, h1, h2, h3, _⟩ := getCachedResult_hit c2 k2 t d rest h
    exact ⟨e, h1, h2, h3⟩

/-- Witness for cache_freshness at a concrete instance: store at time 0 with
ttl 1000, read back at time 500. -/
theorem cache_freshness_witness :
    getCachedResult (setCachedResult 0 ([] : Cache Int) "k" 7 1000) "k" 500
      = (some 7, setCachedResult 0 ([] : Cache Int) "k" 7 1000) :=
  (cache_freshness ([] : Cache Int) "k" 7 1000 0 500 (by simp [mapKeys])
    (by norm_num)).1 (by norm_num)

/-- C7: setCachedResult overwrites the entry for the key (the server passes
the default ttl of 5 minutes), and when the entry count after insertion
exceeds 100 the sweep removes exactly the currently-expired entries among the
others and keeps the unexpired ones. -/
theorem setCachedResult_spec {α : Type} (c : Cache α) (k : String) (d : α)
    (now ttl : Int) (hnd : (mapKeys c).Nodup) (httl : 0 ≤ ttl) :
    defaultCacheTtl = 5 * 60 * 1000
    ∧ mapGet? (setCachedResult now c k d ttl) k
        = some { data := d, timestamp := now, ttl := ttl }
    ∧ (∀ (k2 : String) (e : CacheEntry α), k2 ≠ k →
        (mapGet? (setCachedResult now c k d ttl) k2 = some e
          ↔ mapGet? c k2 = some e
            ∧ ((mapSet c k { data := d, timestamp := now, ttl := ttl }).length > 100
                → now - e.timestamp ≤ e.ttl))) :=
  ⟨by decide,
   mapGet?_setCachedResult_self c k d now ttl hnd httl,
   fun k2 e hne => mapGet?_setCachedResult_ne c k k2 d now ttl hnd hne e⟩

/-- Witness for setCachedResult_spec at a concrete instance. -/
theorem setCachedResult_spec_witness :
    mapGet? (setCachedResult 3 ([] : Cache Int) "k" 9 defaultCacheTtl) "k"
      = some { data := 9, timestamp := 3, ttl := defaultCacheTtl } :=
  (setCachedResult_spec ([] : Cache Int) "k" 9 3 defaultCacheTtl (by simp [mapKeys])
    (by decide)).2.1

/-- A server state holding one expired cache entry under the key the empty
search derives, used to exhibit the lazy-deletion side effect. -/
def expiredEntryState : ServerState :=
  { recentSearches := []
    cache := [(generateCacheKeyRec (serverSearchParams emptyArgs defaultPrefs),
               { data := { total_results := some 2, results := ["A", "B"] },
                 timestamp := 0, ttl := 10 })] }

/-- C5 counterexample: a search whose upstream call fails can still change
the cache map, because the pre-flight lookup lazily deletes an expired entry
under the derived key. -/
theorem searchFailure_cache_cex :
    (searchToolCall expiredEntryState defaultPrefs emptyArgs 100
        (Except.error "boom")).2.cache
      ≠ expiredEntryState.cache := by
  decide

/-- C5 (amended): a search whose upstream call fails appends no history
record and stores no cache entry; the cache is unchanged except that the
lookup may have lazily deleted the expired entry under the derived key. -/
theorem searchFailure_state (st : ServerState) (prefs : Preferences) (args : Args)
    (now : Int) (e : String) :
    (searchToolCall st prefs args now (Except.error e)).2.recentSearches
        = st.recentSearches
    ∧ ((searchToolCall st prefs args now (Except.error e)).2.cache = st.cache
      ∨ (searchToolCall st prefs args now (Except.error e)).2.cache
          = mapDelete st.cache (generateCacheKeyRec (serverSearchParams args prefs))) := by
  unfold searchToolCall
  by_cases hu : args.use_cache ≠ some false
  · rw [if_pos hu]
    have hc := getCachedResult_cache_cases st.cache
        (generateCacheKeyRec (serverSearchParams args prefs)) now
    rcases hgc : getCachedResult st.cache
        (generateCacheKeyRec (serverSearchParams args prefs)) now with ⟨res, c1⟩
    rw [hgc] at hc
    cases res with
    | some data => exact ⟨rfl, hc⟩
    | none => exact ⟨rfl, hc⟩
  · rw [if_neg hu]
    exact ⟨rfl, Or.inl rfl⟩

/-- C6: bounded FIFO history: every append leaves at most 100 records with
the new record at the tail, the result is exactly the last min(n+1, 100)
records of log ++ [record], and folding any record list into the empty log
retains exactly the most recent 100 in insertion order (150 appends keep the
last 100). -/
theorem searchHistory_bounded :
    (∀ (log : List HistoryRecord) (q : SearchParamsRec) (now cnt : Int),
      (addToSearchHistory log q now cnt).length ≤ 100
      ∧ (addToSearchHistory log q now cnt).getLast?
          = some { query := q, timestamp := now, resultCount := cnt }
      ∧ addToSearchHistory log q now cnt
          = (log ++ [({ query := q, timestamp := now, resultCount := cnt } : HistoryRecord)]).drop
              (log.length + 1 - 100))
    ∧ (∀ rs : List HistoryRecord,
        rs.foldl (fun l r => addToSearchHistory l r.query r.timestamp r.resultCount) []
          = rs.drop (rs.length - 100)) := by
  constructor
  · intro log q now cnt
    exact ⟨length_addToSearchHistory log q now cnt,
      addToSearchHistory_tail log q now cnt,
      addToSearchHistory_eq log q now cnt⟩
  · intro rs
    have h := histFold_general rs [] (by simp)
    simpa using h

/-- C8 counterexample: a 414 response is mapped to a fixed message that does
not carry the upstream message text even though it is available, refuting
the claim that every branch carries the upstream text. -/
theorem errorMap_message_cex :
    searchErrorMap 414 "xyz"
      = (ErrCode.invalidParams,
         "Request URI too long. Please reduce the number of parameters.")
    ∧ strIncludes "Request URI too long. Please reduce the number of parameters."
        "xyz" = false := by
  constructor
  · decide
  · decide

/-- C8 (amended): the status table holds: 400 maps to invalid-parameters with
the upstream message; a 403 containing the rate-limit text maps to the fixed
rate-limited message (this check has precedence); a 403 containing the
not-authorized text maps to the fixed unauthorized message; any other 403
carries the message as access denied; 414 maps to a fixed invalid-parameters
message; 502, 503 and 504 map to the fixed upstream-unavailable message; any
other status maps to the generic internal message carrying status and text;
and in the details lookup 404 maps to not-found while every other status maps
to the generic details failure carrying the text.  Only the 400, other-403
and generic branches embed the upstream message. -/
theorem upstream_error_mapping (m : String) (status : Nat) :
    searchErrorMap 400 m = (ErrCode.invalidParams, "Bad request: " ++ m)
    ∧ (strIncludes m "Over Rate Limit" = true →
        searchErrorMap 403 m
          = (ErrCode.invalidRequest, "API rate limit exceeded. Please try again later."))
    ∧ (strIncludes m "Over Rate Limit" = false → strIncludes m "Not Authorized" = true →
        searchErrorMap 403 m
          = (ErrCode.invalidParams, "Invalid API key or unauthorized access."))
    ∧ (strIncludes m "Over Rate Limit" = false → strIncludes m "Not Authorized" = false →
        searchErrorMap 403 m = (ErrCode.invalidRequest, "Access denied: " ++ m))
    ∧ searchErrorMap 414 m
        = (ErrCode.invalidParams,
           "Request URI too long. Please reduce the number of parameters.")
    ∧ searchErrorMap 502 m
        = (ErrCode.internalError,
           "Active Network API is temporarily unavailable. Please try again later.")
    ∧ searchErrorMap 503 m
        = (ErrCode.internalError,
           "Active Network API is temporarily unavailable. Please try again later.")
    ∧ searchErrorMap 504 m
        = (ErrCode.internalError,
           "Active Network API is temporarily unavailable. Please try again later.")
    ∧ (status ∉ ([400, 403, 414, 502, 503, 504] : List Nat) →
        searchErrorMap status m
          = (ErrCode.internalError,
             "Active Network API error (" ++ toString status ++ "): " ++ m))
    ∧ detailsErrorMap 404 m = (ErrCode.invalidRequest, "Activity not found")
    ∧ (status ≠ 404 →
        detailsErrorMap status m
          = (ErrCode.internalError, "Failed to get activity details: " ++ m)) := by
  refine ⟨by simp [searchErrorMap], ?_, ?_, ?_, by simp [searchErrorMap],
    by simp [searchErrorMap], by simp [searchErrorMap], by simp [searchErrorMap],
    ?_, by simp [detailsErrorMap], ?_⟩
  · intro h1
    simp [searchErrorMap, h1]
  · intro h1 h2
    simp [searchErrorMap, h1, h2]
  · intro h1 h2
    simp [searchErrorMap, h1, h2]
  · intro hs
    simp only [List.mem_cons, List.not_mem_nil, or_false, not_or] at hs
    obtain ⟨h1, h2, h3, h4, h5, h6⟩ := hs
    simp [searchErrorMap, h1, h2, h3, h4, h5, h6]
  · intro h
    simp [detailsErrorMap, h]

/-- Witness for upstream_error_mapping: the conditional branches at concrete
messages and statuses. -/
theorem upstream_error_mapping_witness :
    searchErrorMap 403 "Over Rate Limit"
      = (ErrCode.invalidRequest, "API rate limit exceeded. Please try again later.")
    ∧ searchErrorMap 403 "Not Authorized"
      = (ErrCode.invalidParams, "Invalid API key or unauthorized access.")
    ∧ searchErrorMap 403 "other"
      = (ErrCode.invalidRequest, "Access denied: other")
    ∧ searchErrorMap 500 "oops"
      = (ErrCode.internalError, "Active Network API error (500): oops")
    ∧ detailsErrorMap 500 "oops"
      = (ErrCode.internalError, "Failed to get activity details: oops") :=
  ⟨(upstream_error_mapping "Over Rate Limit" 0).2.1 (by decide),
   (upstream_error_mapping "Not Authorized" 0).2.2.1 (by decide) (by decide),
   (upstream_error_mapping "other" 0).2.2.2.1 (by decide) (by decide),
   (upstream_error_mapping "oops" 500).2.2.2.2.2.2.2.2.1 (by decide),
   (upstream_error_mapping "oops" 500).2.2.2.2.2.2.2.2.2.2 (by decide)⟩

/-- A history record carrying only a category, for the analytics example. -/
def catRecord (c : String) : HistoryRecord :=
  { query := { emptyParams with category := some c }, timestamp := 0, resultCount := 0 }

/-- C9: the top-category and top-location lists are at most 5 long, sorted by
descending count; the underlying sort preserves the relative order of tied
counts, and permutes the frequency table; the frequency table assigns each
key exactly its number of occurrences (with the location key falling back to
the default location and then to unknown); the table lists keys in first-seen
order; and six records with categories a,a,b,b,b,c produce exactly
(b,3),(a,2),(c,1). -/
theorem analytics_top5 (searches : List HistoryRecord) (defLoc : Option String)
    (n : Nat) :
    (topCategories searches).length ≤ 5
    ∧ (topLocations defLoc searches).length ≤ 5
    ∧ List.Sorted countGE (topCategories searches)
    ∧ List.Sorted countGE (topLocations defLoc searches)
    ∧ (List.insertionSort countGE (categoryFreq searches)).filter (fun q => q.2 == n)
        = (categoryFreq searches).filter (fun q => q.2 == n)
    ∧ List.Perm (List.insertionSort countGE (categoryFreq searches))
        (categoryFreq searches)
    ∧ (∀ k2, freqCount (categoryFreq searches) k2
        = searches.countP (fun s => categoryKeyOf s == k2))
    ∧ (∀ k2, freqCount (locationFreq defLoc searches) k2
        = searches.countP (fun s => locationKeyOf defLoc s == k2))
    ∧ mapKeys (categoryFreq searches) = specFirstSeen (searches.map categoryKeyOf)
    ∧ topCategories
        [catRecord "a", catRecord "a", catRecord "b", catRecord "b", catRecord "b",
         catRecord "c"]
        = [("b", 3), ("a", 2), ("c", 1)] := by
  refine ⟨?_, ?_, ?_, ?_, filter_insertionSort_count _ n,
    List.perm_insertionSort _ _, ?_, ?_, ?_, by decide⟩
  · exact List.length_take_le 5 _
  · exact List.length_take_le 5 _
  · exact List.Pairwise.sublist (List.take_sublist 5 _)
      (List.sorted_insertionSort countGE _)
  · exact List.Pairwise.sublist (List.take_sublist 5 _)
      (List.sorted_insertionSort countGE _)
  · intro k2
    have h := foldFreq_count categoryKeyOf searches [] k2
    simpa [freqCount, mapGet?, categoryFreq, foldFreq] using h
  · intro k2
    have h := foldFreq_count (locationKeyOf defLoc) searches [] k2
    simpa [freqCount, mapGet?, locationFreq, foldFreq] using h
  · have h := foldFreq_keys categoryKeyOf searches []
    simpa [categoryFreq, foldFreq, specFirstSeen, mapKeys] using h

/-- Arguments disabling the cache. -/
def noCacheArgs : Args :=
  { emptyArgs with use_cache := some false }

/-- A server state with a fresh cache entry under the key the no-cache search
derives, to exhibit that the entry is ignored when use_cache is false. -/
def freshEntryState : ServerState :=
  { recentSearches := []
    cache := [(generateCacheKeyRec (serverSearchParams noCacheArgs defaultPrefs),
               { data := { total_results := some 9, results := ["OLD"] },
                 timestamp := 0, ttl := 300000 })] }

/-- C10: with use_cache false the cache map is untouched: it is read from nor
written to, the outcome on upstream success is the fresh upstream payload
even when a fresh entry exists for the derived key, a history record is still
appended on success, and on upstream failure the history is unchanged. -/
theorem useCache_false_frame (st : ServerState) (prefs : Preferences) (args : Args)
    (now : Int) (upstream : Except String SearchResponse)
    (h : args.use_cache = some false) :
    (searchToolCall st prefs args now upstream).2.cache = st.cache
    ∧ (∀ r, upstream = Except.ok r →
        (searchToolCall st prefs args now upstream).1
            = SearchOutcome.fresh r (serverSearchParams args prefs)
        ∧ (searchToolCall st prefs args now upstream).2.recentSearches
            = addToSearchHistory st.recentSearches (serverSearchParams args prefs) now
                (responseCount r))
    ∧ (∀ e2, upstream = Except.error e2 →
        (searchToolCall st prefs args now upstream).1 = SearchOutcome.failure e2
        ∧ (searchToolCall st prefs args now upstream).2.recentSearches
            = st.recentSearches) := by
  unfold searchToolCall
  rw [if_neg (by simp [h])]
  cases upstream with
  | error e2 =>
    refine ⟨rfl, ?_, ?_⟩
    · intro r hr
      cases hr
    · intro e3 he
      cases he
      exact ⟨rfl, rfl⟩
  | ok r =>
    refine ⟨rfl, ?_, ?_⟩
    · intro r2 hr
      cases hr
      exact ⟨rfl, rfl⟩
    · intro e3 he
      cases he

/-- Witness for useCache_false_frame: a fresh entry exists under the derived
key, use_cache is false, and the upstream result is served and the cache left
identical. -/
theorem useCache_false_frame_witness :
    (searchToolCall freshEntryState defaultPrefs noCacheArgs 5
        (Except.ok { total_results := some 1, results := ["NEW"] })).2.cache
      = freshEntryState.cache
    ∧ (searchToolCall freshEntryState defaultPrefs noCacheArgs 5
        (Except.ok { total_results := some 1, results := ["NEW"] })).1
      = SearchOutcome.fresh { total_results := some 1, results := ["NEW"] }
          (serverSearchParams noCacheArgs defaultPrefs) :=
  ⟨(useCache_false_frame freshEntryState defaultPrefs noCacheArgs 5
      (Except.ok { total_results := some 1, results := ["NEW"] }) (by decide)).1,
   ((useCache_false_frame freshEntryState defaultPrefs noCacheArgs 5
      (Except.ok { total_results := some 1, results := ["NEW"] }) (by decide)).2.1
      { total_results := some 1, results := ["NEW"] } rfl).1⟩
